import Mathlib

/-!
Verification development for the real-time duplex speech session client
(`src/services/liveClient.ts`, current revision, together with the transcript
consumer `handleTranscript` in `src/components/ActiveSession.tsx`).

Times and sample values are modelled as rationals (the source uses JS doubles,
but every property at stake is order/arithmetic, not rounding).  Stateful
methods are embedded as explicit state-passing functions; callback invocations
and other side effects are returned as explicit action lists, in the order the
source performs them.
-/

namespace ConfidenceApp

/-! ## Playback scheduler (`LiveClient.playAudio` / `LiveClient.stopPlayback`)

State: `nextStartTime` and `activeSources` fields of `LiveClient`.
`playAudio` (after decoding) does
  `nextStartTime = max(nextStartTime, outputAudioContext.currentTime)`,
  `source.start(nextStartTime)`, `nextStartTime += buffer.duration`,
  `activeSources.add(source)`;
the `ended` listener removes the source from the set; `stopPlayback` stops and
clears every active source and sets
  `nextStartTime = outputAudioContext?.currentTime || 0`
(the `|| 0` makes the result `t` when the context reports `t`, and `0` when
the context is gone, since `0 || 0 = 0` in JS). -/

/-- A scheduled `AudioBufferSourceNode`: identity, scheduled start, duration. -/
structure Src where
  id : Nat
  start : ℚ
  dur : ℚ
deriving DecidableEq

/-- The playback-scheduler fragment of the `LiveClient` mutable state. -/
structure SchedState where
  nextStartTime : ℚ
  activeSources : List Src
  nextId : Nat
deriving DecidableEq

/-- Initial state: `nextStartTime = 0`, empty active set. -/
def initSched : SchedState := ⟨0, [], 0⟩

/-- External events hitting the scheduler: a decoded audio chunk of a given
duration arriving at clock time `now` (`playAudio`), the `ended` listener of a
source firing, and an interruption (`stopPlayback`) with the value of
`outputAudioContext?.currentTime` (`none` when the context is null). -/
inductive SchedEvent
  | play (now dur : ℚ)
  | ended (id : Nat)
  | interrupt (ctxTime : Option ℚ)
deriving DecidableEq

/-- Duration carried by an event (`buffer.duration` for `play`, else 0). -/
def eventDur : SchedEvent → ℚ
  | .play _ d => d
  | _ => 0

/-- The scheduled start chosen by `playAudio`:
`this.nextStartTime = Math.max(this.nextStartTime, this.outputAudioContext.currentTime)`. -/
def scheduledStart (st : SchedState) (now : ℚ) : ℚ :=
  max st.nextStartTime now

/-- One step of the scheduler, translated from `playAudio` (lines 680-705),
the `ended` listener (lines 698-700) and `stopPlayback` (lines 707-713). -/
def schedStep (st : SchedState) : SchedEvent → SchedState
  | .play now dur =>
    { nextStartTime := scheduledStart st now + dur
      activeSources := st.activeSources ++ [⟨st.nextId, scheduledStart st now, dur⟩]
      nextId := st.nextId + 1 }
  | .ended i =>
    { st with activeSources := st.activeSources.filter (fun s => s.id ≠ i) }
  | .interrupt ctxTime =>
    { st with activeSources := [], nextStartTime := ctxTime.getD 0 }

/-- Run a whole event sequence from the initial state. -/
def runSched (es : List SchedEvent) : SchedState :=
  es.foldl schedStep initSched

/-- Two scheduled intervals `[start, start+dur)` overlap. -/
def overlaps (a b : Src) : Prop :=
  a.start < b.start + b.dur ∧ b.start < a.start + a.dur

/-- No two buffers in the active set have overlapping scheduled intervals. -/
def activeDisjoint (st : SchedState) : Prop :=
  st.activeSources.Pairwise (fun a b => ¬ overlaps a b)

/-- Scheduler invariant: every active buffer ends no later than the
next-start clock, and the active set is chained in insertion order. -/
def SchedInv (st : SchedState) : Prop :=
  (∀ s ∈ st.activeSources, s.start + s.dur ≤ st.nextStartTime) ∧
  st.activeSources.Pairwise (fun a b => a.start + a.dur ≤ b.start)

theorem schedInv_init : SchedInv initSched := by
  constructor
  · intro s hs; simp [initSched] at hs
  · simp [initSched]

theorem schedInv_step (st : SchedState) (e : SchedEvent)
    (hd : 0 ≤ eventDur e) (h : SchedInv st) : SchedInv (schedStep st e) := by
  obtain ⟨hend, hchain⟩ := h
  cases e with
  | play now dur =>
    simp only [eventDur] at hd
    constructor
    · intro s hs
      simp only [schedStep, List.mem_append, List.mem_singleton] at hs
      rcases hs with hs | hs
      · have h1 : s.start + s.dur ≤ st.nextStartTime := hend s hs
        have h2 : st.nextStartTime ≤ scheduledStart st now := le_max_left _ _
        have h3 : scheduledStart st now ≤ scheduledStart st now + dur :=
          le_add_of_nonneg_right hd
        calc s.start + s.dur ≤ st.nextStartTime := h1
          _ ≤ scheduledStart st now := h2
          _ ≤ scheduledStart st now + dur := h3
      · subst hs; simp [schedStep]
    · simp only [schedStep]
      rw [List.pairwise_append]
      refine ⟨hchain, by simp, ?_⟩
      intro a ha b hb
      simp only [List.mem_singleton] at hb
      subst hb
      have h1 : a.start + a.dur ≤ st.nextStartTime := hend a ha
      exact h1.trans (le_max_left _ _)
  | ended i =>
    constructor
    · intro s hs
      simp only [schedStep] at hs
      exact hend s (List.mem_of_mem_filter hs)
    · exact List.Pairwise.sublist (List.filter_sublist _) hchain
  | interrupt ctxTime =>
    constructor
    · intro s hs; simp [schedStep] at hs
    · simp [schedStep]

theorem schedInv_foldl (es : List SchedEvent) (st : SchedState)
    (h : ∀ e ∈ es, 0 ≤ eventDur e) (hst : SchedInv st) :
    SchedInv (es.foldl schedStep st) := by
  induction es generalizing st with
  | nil => exact hst
  | cons e es ih =>
    simp only [List.foldl_cons]
    exact ih _ (fun x hx => h x (List.mem_cons_of_mem _ hx))
      (schedInv_step st e (h e (List.mem_cons_self _ _)) hst)

theorem chained_disjoint (st : SchedState) (h : SchedInv st) :
    activeDisjoint st := by
  refine List.Pairwise.imp ?_ h.2
  intro a b hab hover
  exact absurd hab (not_le.mpr hover.2)

/-- C1: every decoded response-audio chunk handed to `playAudio` is scheduled
to start at `max(nextStartTime, now)` and the next-start clock then advances
by the buffer's duration; consequently, over any event sequence with
nonnegative durations, no two buffers simultaneously in the active set have
overlapping `[start, start + duration)` intervals. -/
theorem playAudio_gapless_no_overlap (es : List SchedEvent)
    (h : ∀ e ∈ es, 0 ≤ eventDur e) :
    activeDisjoint (runSched es) ∧
    ∀ (st : SchedState) (now dur : ℚ),
      schedStep st (SchedEvent.play now dur) =
        { nextStartTime := max st.nextStartTime now + dur
          activeSources :=
            st.activeSources ++ [⟨st.nextId, max st.nextStartTime now, dur⟩]
          nextId := st.nextId + 1 } := by
  constructor
  · exact chained_disjoint _ (schedInv_foldl es initSched h schedInv_init)
  · intro st now dur; rfl

/-- Concrete run exercising `playAudio_gapless_no_overlap`. -/
def esW : List SchedEvent :=
  [SchedEvent.play 0 2, SchedEvent.play 1 3, SchedEvent.ended 0,
   SchedEvent.interrupt (some 3), SchedEvent.play 2 1, SchedEvent.play 9 2]

theorem playAudio_gapless_no_overlap_witness :
    (∀ e ∈ esW, 0 ≤ eventDur e) ∧ activeDisjoint (runSched esW) :=
  ⟨by decide, (playAudio_gapless_no_overlap esW (by decide)).1⟩

/-- C2: after `stopPlayback` runs with the output context reporting time `t`,
the active set is empty and the next-start clock equals `t`; a buffer
scheduled afterwards (at clock `now`) starts at `max t now`, which is at or
after `now` and at or after `t` — never before "now". -/
theorem stopPlayback_resets_clock (st : SchedState) (t : ℚ) :
    (schedStep st (SchedEvent.interrupt (some t))).activeSources = [] ∧
    (schedStep st (SchedEvent.interrupt (some t))).nextStartTime = t ∧
    ∀ now dur : ℚ,
      ∃ s : Src,
        (schedStep (schedStep st (SchedEvent.interrupt (some t)))
            (SchedEvent.play now dur)).activeSources = [s] ∧
        s.start = max t now ∧ now ≤ s.start ∧ t ≤ s.start := by
  refine ⟨rfl, rfl, ?_⟩
  intro now dur
  refine ⟨⟨st.nextId, max t now, dur⟩, ?_, rfl, le_max_right _ _, le_max_left _ _⟩
  simp [schedStep, scheduledStart]

/-! ## Recording export (`LiveClient.getSessionRecording`, lines 558-581)

`recordedChunks` is the RecordingBuffer: a list of `Float32Array` chunks,
modelled as `List (List ℚ)`.  `getSessionRecording` returns `null` when the
buffer is empty; otherwise it scans every sample for the absolute peak
`maxVal`, and if `maxVal > 0` multiplies every sample in place by
`targetPeak / maxVal` before serializing (`float32ToWav` lives outside
`src/`; the artifact is modelled as the sample data handed to it). -/

/-- Inner loop of the peak scan: fold of `max acc |sample|` over one chunk. -/
def sampleMax (m : ℚ) (c : List ℚ) : ℚ :=
  c.foldl (fun acc x => max acc |x|) m

/-- `maxVal` after scanning the whole RecordingBuffer (initial value 0). -/
def peakOf (chunks : List (List ℚ)) : ℚ :=
  chunks.foldl sampleMax 0

/-- `const targetPeak = 0.95; // -0.5dB` -/
def targetPeak : ℚ := 0.95

/-- `LiveClient.getSessionRecording`: `null` on an empty buffer, otherwise the
(possibly peak-normalized) sample data passed to the WAV serializer. -/
def getSessionRecording (chunks : List (List ℚ)) : Option (List (List ℚ)) :=
  if chunks.isEmpty then none
  else if 0 < peakOf chunks then
    some (chunks.map (fun c => c.map (fun x => x * (targetPeak / peakOf chunks))))
  else some chunks

theorem sampleMax_map_mul (k : ℚ) (hk : 0 ≤ k) (m : ℚ) (c : List ℚ) :
    sampleMax (k * m) (c.map (fun x => x * k)) = k * sampleMax m c := by
  induction c generalizing m with
  | nil => rfl
  | cons x xs ih =>
    simp only [List.map_cons, sampleMax, List.foldl_cons] at *
    have hstep : max (k * m) |x * k| = k * max m |x| := by
      rw [abs_mul, abs_of_nonneg hk, mul_comm |x| k, mul_max_of_nonneg m |x| hk]
    rw [hstep]
    exact ih (max m |x|)

theorem peak_foldl_map_mul (k : ℚ) (hk : 0 ≤ k) (m : ℚ)
    (chunks : List (List ℚ)) :
    (chunks.map (fun c => c.map (fun x => x * k))).foldl sampleMax (k * m) =
      k * chunks.foldl sampleMax m := by
  induction chunks generalizing m with
  | nil => rfl
  | cons c cs ih =>
    simp only [List.map_cons, List.foldl_cons]
    rw [sampleMax_map_mul k hk m c]
    exact ih (sampleMax m c)

theorem peakOf_scale (k : ℚ) (hk : 0 ≤ k) (chunks : List (List ℚ)) :
    peakOf (chunks.map (fun c => c.map (fun x => x * k))) = k * peakOf chunks := by
  have h := peak_foldl_map_mul k hk 0 chunks
  rw [mul_zero] at h
  simpa [peakOf] using h

theorem le_sampleMax (m : ℚ) (c : List ℚ) : m ≤ sampleMax m c := by
  induction c generalizing m with
  | nil => exact le_refl m
  | cons x xs ih =>
    simp only [sampleMax, List.foldl_cons] at *
    exact (le_max_left m |x|).trans (ih (max m |x|))

theorem le_peak_foldl (m : ℚ) (chunks : List (List ℚ)) :
    m ≤ chunks.foldl sampleMax m := by
  induction chunks generalizing m with
  | nil => exact le_refl m
  | cons c cs ih =>
    simp only [List.foldl_cons]
    exact (le_sampleMax m c).trans (ih (sampleMax m c))

theorem peakOf_nonneg (chunks : List (List ℚ)) : 0 ≤ peakOf chunks :=
  le_peak_foldl 0 chunks

theorem targetPeak_pos : 0 < targetPeak := by norm_num [targetPeak]

/-- C5: the peak is never negative; an empty RecordingBuffer exports to
nothing; an entirely silent buffer (peak 0) is exported unscaled; and a
buffer with positive peak is exported with every sample scaled in place by
`targetPeak / peak`, after which the absolute peak of the artifact equals
the target peak 0.95 exactly. -/
theorem getSessionRecording_peak_normalization (chunks : List (List ℚ)) :
    (0 : ℚ) ≤ peakOf chunks ∧
    (chunks = [] → getSessionRecording chunks = none) ∧
    (chunks ≠ [] → peakOf chunks = 0 → getSessionRecording chunks = some chunks) ∧
    (chunks ≠ [] → 0 < peakOf chunks →
      getSessionRecording chunks =
        some (chunks.map (fun c =>
          c.map (fun x => x * (targetPeak / peakOf chunks)))) ∧
      peakOf (chunks.map (fun c =>
          c.map (fun x => x * (targetPeak / peakOf chunks)))) = targetPeak) := by
  refine ⟨peakOf_nonneg chunks, ?_, ?_, ?_⟩
  · intro h; subst h; rfl
  · intro hne h0
    simp [getSessionRecording, hne, h0]
  · intro hne hpos
    have hk : 0 ≤ targetPeak / peakOf chunks :=
      div_nonneg (le_of_lt targetPeak_pos) (le_of_lt hpos)
    refine ⟨by simp [getSessionRecording, hne, hpos], ?_⟩
    rw [peakOf_scale _ hk chunks]
    rw [mul_comm]
    exact mul_div_cancel₀ targetPeak (ne_of_gt hpos)

/-- Concrete RecordingBuffer exercising the normalized export path. -/
def chunksW : List (List ℚ) := [[mkRat 1 2], [0, mkRat (-1) 4]]

theorem getSessionRecording_peak_normalization_witness :
    chunksW ≠ [] ∧ 0 < peakOf chunksW ∧
    (getSessionRecording chunksW =
      some (chunksW.map (fun c =>
        c.map (fun x => x * (targetPeak / peakOf chunksW)))) ∧
     peakOf (chunksW.map (fun c =>
        c.map (fun x => x * (targetPeak / peakOf chunksW)))) = targetPeak) :=
  ⟨by decide, by decide,
   (getSessionRecording_peak_normalization chunksW).2.2.2 (by decide) (by decide)⟩

/-! ## Mastering chain (`LiveClient.setupRecorder`, lines 490-556)

`setupRecorder` builds the recording chain
`mic -> gain -> highpass -> presence -> air -> compressor -> limiter ->
capture processor`, with every filter parameter set from the quality tier
(`isStudio = (this.quality === 'studio')`).  Each stage is modelled as a
descriptor carrying exactly the parameters the source sets; the order of the
list is the connect order of the chain. -/

/-- Node species of a mastering stage (`BiquadFilterNode` type, or a
`DynamicsCompressorNode`, which the source uses both for the vocal
compressor and for the limiter). -/
inductive StageKind
  | highpass
  | peaking
  | highshelf
  | dynamics
deriving DecidableEq

/-- One configured stage of the recording chain. -/
inductive MasterStage
  | highpass (frequency q : ℚ)
  | peaking (frequency gain q : ℚ)
  | highshelf (frequency gain : ℚ)
  | dynamics (threshold knee r attack release : ℚ)
deriving DecidableEq

/-- Species of a configured stage. -/
def stageKind : MasterStage → StageKind
  | .highpass _ _ => .highpass
  | .peaking _ _ _ => .peaking
  | .highshelf _ _ => .highshelf
  | .dynamics _ _ _ _ _ => .dynamics

/-- The ordered filter chain built by `setupRecorder`, parameters verbatim
from the source (`isStudio ? a : b` ternaries included). -/
def masteringChain (isStudio : Bool) : List MasterStage :=
  [MasterStage.highpass (if isStudio then 90 else 80) 0.7,
   MasterStage.peaking 3200 (if isStudio then 3.5 else 2.0) 1.0,
   MasterStage.highshelf 10000 (if isStudio then 4.0 else 1.5),
   MasterStage.dynamics (if isStudio then -24 else -18) 12
     (if isStudio then 5 else 4) 0.005 0.2,
   MasterStage.dynamics (-1.5) 0 20 0.001 0.05]

/-- C8: for both quality tiers the chain is high-pass, presence peaking,
air high-shelf, compressor, limiter in that fixed order; the tier-dependent
parameters are exactly the §4.4 table (high-pass 80/90 Hz, presence
+2.0/+3.5 dB, air +1.5/+4.0 dB, compressor threshold −18/−24 dBFS and ratio
4/5), and the final limiter stage is identical in both tiers (threshold
−1.5 dBFS, ratio 20:1, attack 1 ms, release 50 ms). -/
theorem masteringChain_stage_order_and_params :
    (masteringChain false).map stageKind =
      [StageKind.highpass, StageKind.peaking, StageKind.highshelf,
       StageKind.dynamics, StageKind.dynamics] ∧
    (masteringChain true).map stageKind =
      [StageKind.highpass, StageKind.peaking, StageKind.highshelf,
       StageKind.dynamics, StageKind.dynamics] ∧
    masteringChain false =
      [MasterStage.highpass 80 0.7,
       MasterStage.peaking 3200 2.0 1.0,
       MasterStage.highshelf 10000 1.5,
       MasterStage.dynamics (-18) 12 4 0.005 0.2,
       MasterStage.dynamics (-1.5) 0 20 0.001 0.05] ∧
    masteringChain true =
      [MasterStage.highpass 90 0.7,
       MasterStage.peaking 3200 3.5 1.0,
       MasterStage.highshelf 10000 4.0,
       MasterStage.dynamics (-24) 12 5 0.005 0.2,
       MasterStage.dynamics (-1.5) 0 20 0.001 0.05] ∧
    (masteringChain true).getLast? = (masteringChain false).getLast? ∧
    (masteringChain false).getLast? =
      some (MasterStage.dynamics (-1.5) 0 20 0.001 0.05) :=
  ⟨rfl, rfl, rfl, rfl, rfl, rfl⟩

/-! ## Session lifecycle (`LiveClient.connect`, lines 434-488, and
`LiveClient.disconnect`, lines 715-781)

The nullable fields of `LiveClient` are modelled as `Bool`/`Option` fields;
each observable side effect (callback invocation, node teardown, transport
open/close) appears in an explicit action list, in the order the source
performs it.  `disconnect` is straight-line code in which every step guards
on, then clears, its own disjoint group of fields; it is embedded as one
record update plus the concatenated action list in source order:
1. `isRecording = false`; 2. `cancelAnimationFrame` if pending;
3. `session.close()` under try/catch if a session promise exists (errors
swallowed, so the model is total); 4. `stopPlayback()` (stop every active
source, clear the set, `nextStartTime = outputAudioContext?.currentTime || 0`,
and the output context is still open at this point, so the pre-call value
decides it); 5.-12. disconnect each non-null node in order (processor,
recordingProcessor, recordingHighPass, recordingPresence, recordingAir,
recordingCompressor, recordingLimiter, source); 13. stop media tracks;
14.-15. close the input and output contexts; 16. `onVolume(0, 0)`.
The analyser fields are never nulled by `disconnect` in the source, and so
are left untouched here too. -/

/-- Audio-graph nodes `disconnect` tears down, in source order. -/
inductive NodeName
  | processor
  | recordingProcessor
  | recordingHighPass
  | recordingPresence
  | recordingAir
  | recordingCompressor
  | recordingLimiter
  | source
deriving DecidableEq

/-- Observable side effects of `connect` / `disconnect`. -/
inductive CAction
  | cancelAnim (id : Nat)
  | sessionClose
  | sourceStop (id : Nat)
  | nodeDisconnect (n : NodeName)
  | tracksStop
  | inputCtxClose
  | outputCtxClose
  | volume (inputVol outputVol : ℚ)
  | errorCb
  | transportOpen
deriving DecidableEq

/-- The lifecycle-relevant mutable state of a `LiveClient` instance. -/
structure ClientState where
  isRecording : Bool
  animationFrameId : Option Nat
  sessionPromise : Option Nat
  nextStartTime : ℚ
  activeSources : List Src
  processor : Bool
  recordingProcessor : Bool
  recordingHighPass : Bool
  recordingPresence : Bool
  recordingAir : Bool
  recordingCompressor : Bool
  recordingLimiter : Bool
  source : Bool
  inputAnalyser : Bool
  outputAnalyser : Bool
  mediaStream : Bool
  inputAudioContext : Bool
  outputAudioContext : Bool
  outputCtxTime : ℚ
deriving DecidableEq

/-- Fresh `LiveClient` state (constructor: every handle null, clock 0). -/
def initClientState : ClientState :=
  { isRecording := false
    animationFrameId := none
    sessionPromise := none
    nextStartTime := 0
    activeSources := []
    processor := false
    recordingProcessor := false
    recordingHighPass := false
    recordingPresence := false
    recordingAir := false
    recordingCompressor := false
    recordingLimiter := false
    source := false
    inputAnalyser := false
    outputAnalyser := false
    mediaStream := false
    inputAudioContext := false
    outputAudioContext := false
    outputCtxTime := 0 }

/-- `LiveClient.disconnect`: resulting state and emitted actions in source
order (see the section comment for the line-by-line mapping). -/
def disconnect (st : ClientState) : ClientState × List CAction :=
  ({ st with
      isRecording := false
      animationFrameId := none
      sessionPromise := none
      activeSources := []
      nextStartTime := if st.outputAudioContext then st.outputCtxTime else 0
      processor := false
      recordingProcessor := false
      recordingHighPass := false
      recordingPresence := false
      recordingAir := false
      recordingCompressor := false
      recordingLimiter := false
      source := false
      mediaStream := false
      inputAudioContext := false
      outputAudioContext := false },
   ((match st.animationFrameId with
     | some i => [CAction.cancelAnim i]
     | none => [])
    ++ (match st.sessionPromise with
     | some _ => [CAction.sessionClose]
     | none => [])
    ++ st.activeSources.map (fun s => CAction.sourceStop s.id)
    ++ (if st.processor then [CAction.nodeDisconnect NodeName.processor] else [])
    ++ (if st.recordingProcessor then
          [CAction.nodeDisconnect NodeName.recordingProcessor] else [])
    ++ (if st.recordingHighPass then
          [CAction.nodeDisconnect NodeName.recordingHighPass] else [])
    ++ (if st.recordingPresence then
          [CAction.nodeDisconnect NodeName.recordingPresence] else [])
    ++ (if st.recordingAir then
          [CAction.nodeDisconnect NodeName.recordingAir] else [])
    ++ (if st.recordingCompressor then
          [CAction.nodeDisconnect NodeName.recordingCompressor] else [])
    ++ (if st.recordingLimiter then
          [CAction.nodeDisconnect NodeName.recordingLimiter] else [])
    ++ (if st.source then [CAction.nodeDisconnect NodeName.source] else [])
    ++ (if st.mediaStream then [CAction.tracksStop] else [])
    ++ (if st.inputAudioContext then [CAction.inputCtxClose] else [])
    ++ (if st.outputAudioContext then [CAction.outputCtxClose] else []))
   ++ [CAction.volume 0 0])

/-- `LiveClient.connect`: both audio contexts are constructed first; then
`getUserMedia` either succeeds (analysers and recorder are set up, the
transport is opened and the session promise stored) or throws, in which case
the surrounding try/catch reports the device error via `onError` and nothing
further happens — in particular no transport is opened and `sessionPromise`
is never assigned. -/
def connect (st : ClientState) (deviceAvailable : Bool) :
    ClientState × List CAction :=
  if deviceAvailable then
    ({ st with
        inputAudioContext := true
        outputAudioContext := true
        mediaStream := true
        inputAnalyser := true
        outputAnalyser := true
        recordingHighPass := true
        recordingPresence := true
        recordingAir := true
        recordingCompressor := true
        recordingLimiter := true
        recordingProcessor := true
        isRecording := true
        sessionPromise := some 0 },
     [CAction.transportOpen])
  else
    ({ st with inputAudioContext := true, outputAudioContext := true },
     [CAction.errorCb])

/-- C7: when the microphone is unavailable at `connect` time, the call
surfaces a device-access error through the error callback, opens no
transport, and leaves the session handle null. -/
theorem connect_device_failure (st : ClientState)
    (h : st.sessionPromise = none) :
    (connect st false).1.sessionPromise = none ∧
    (connect st false).2 = [CAction.errorCb] ∧
    CAction.transportOpen ∉ (connect st false).2 := by
  refine ⟨?_, rfl, ?_⟩
  · simpa [connect] using h
  · simp [connect]

theorem connect_device_failure_witness :
    initClientState.sessionPromise = none ∧
    ((connect initClientState false).1.sessionPromise = none ∧
     (connect initClientState false).2 = [CAction.errorCb] ∧
     CAction.transportOpen ∉ (connect initClientState false).2) :=
  ⟨rfl, connect_device_failure initClientState rfl⟩

/-- A mid-session client state: pending animation frame, live session,
three active sources, every node and context alive, clock reading 5. -/
def stC6 : ClientState :=
  { isRecording := true
    animationFrameId := some 7
    sessionPromise := some 0
    nextStartTime := 4
    activeSources := [⟨0, 0, 2⟩, ⟨1, 2, 2⟩, ⟨2, 4, 2⟩]
    processor := true
    recordingProcessor := true
    recordingHighPass := true
    recordingPresence := true
    recordingAir := true
    recordingCompressor := true
    recordingLimiter := true
    source := true
    inputAnalyser := true
    outputAnalyser := true
    mediaStream := true
    inputAudioContext := true
    outputAudioContext := true
    outputCtxTime := 5 }

/-- C6 as stated is false on the code: at `stC6` the second `disconnect`
call still invokes the volume callback (so there is a further callback
invocation) and resets `nextStartTime` to 0 (the output context is gone, so
`outputAudioContext?.currentTime || 0` yields 0 instead of the 5 the first
call stored) — a state field change. -/
theorem disconnect_twice_counterexample :
    (disconnect (disconnect stC6).1).2 = [CAction.volume 0 0] ∧
    (disconnect (disconnect stC6).1).1 ≠ (disconnect stC6).1 := by
  exact ⟨rfl, by decide⟩

/-- C6 (amended): a second `disconnect` never throws and performs no
teardown actions — no session close, no source stops, no node disconnects,
no track stops, no context closes — and changes no state field except
resetting `nextStartTime` to 0; its only remaining side effect is the
unconditional final `onVolume(0, 0)` that every `disconnect` call emits. -/
theorem disconnect_idempotent_amended (st : ClientState) :
    (disconnect (disconnect st).1).2 = [CAction.volume 0 0] ∧
    (disconnect (disconnect st).1).1 =
      { (disconnect st).1 with nextStartTime := 0 } :=
  ⟨rfl, rfl⟩

/-- C9: every `disconnect` call — from any state, including a fresh client
and repeated calls — ends by invoking the volume callback with `(0, 0)` as
its final action. -/
theorem disconnect_ends_with_volume_zero (st : ClientState) :
    ((disconnect st).2).getLast? = some (CAction.volume 0 0) := by
  exact List.getLast?_concat _

/-! ## Protocol tag parser (`LiveClient.handleMessage`, lines 636-678, and
`handleTranscript` in `ActiveSession.tsx`, lines 745-797)

On every incoming model-transcript chunk, `handleMessage` appends the chunk
to `currentModelTurnText`, then runs a fresh copy of the global regex
`ANALYSIS_REGEX = \[\[E:([^\]]+)\]\](?:\[\[I:([^\]]+)\]\])?` in an
`exec` loop over the whole accumulated text, calling
`onAnalysis(match[1], match[2] || 'Neutral')` for every match; then the same
for `BREATH_REGEX = \[\[B:(\w+)\]\]` and `onBreath`; then it forwards the
raw chunk via `onTranscript`, and clears the accumulator on `turnComplete`.

The regex families are embedded directly: `[^\]]+` (greedy, followed by the
literal `]]`) matches exactly the maximal nonempty run of non-`]`
characters provided the two characters after it are `]]` (shorter
backtracked runs would leave a non-`]` character where `]` is required),
and likewise `\w+`.  A global `exec` loop yields the leftmost
non-overlapping matches, scanning left to right; the fuelled scanner below
does the same, with fuel = input length (each step consumes at least one
character).

The consumer `handleTranscript` (ActiveSession) cleans each chunk in
isolation with `TAG_CLEAN_REGEX = \[\[(E|I|B):[^\]]+\]\]`, trims it, drops
it if empty, and otherwise appends it to the last transcript item of the
same role (user items get a space separator; model items are concatenated
directly) or starts a new item.  Item ids/timestamps, filler-word counts
and pronunciation-tip state do not affect the transcript text and are not
modelled. -/

/-- `[^\]]` — any character other than `]`. -/
def notBr (c : Char) : Bool := c != ']'

/-- `\w` — ASCII letter, digit or underscore. -/
def isWordChar (c : Char) : Bool := c.isAlpha || c.isDigit || c == '_'

/-- One `ANALYSIS_REGEX` match: capture group 1 and optional group 2. -/
structure AnalysisMatch where
  emotion : List Char
  intent : Option (List Char)
deriving DecidableEq

/-- Match `\[\[I:([^\]]+)\]\]` at the head of `s`, returning the capture
and the remainder. -/
def tryIntentAt (s : List Char) : Option (List Char × List Char) :=
  match s with
  | '[' :: '[' :: 'I' :: ':' :: r =>
    let g := r.takeWhile notBr
    if g.isEmpty then none
    else
      match r.dropWhile notBr with
      | ']' :: ']' :: rest => some (g, rest)
      | _ => none
  | _ => none

/-- Match `ANALYSIS_REGEX` at the head of `s`: the mandatory
`\[\[E:([^\]]+)\]\]` part, then the optional `(?:\[\[I:([^\]]+)\]\])?`. -/
def tryAnalysisAt (s : List Char) : Option (AnalysisMatch × List Char) :=
  match s with
  | '[' :: '[' :: 'E' :: ':' :: r =>
    let g := r.takeWhile notBr
    if g.isEmpty then none
    else
      match r.dropWhile notBr with
      | ']' :: ']' :: rest =>
        match tryIntentAt rest with
        | some (g2, rest2) => some (⟨g, some g2⟩, rest2)
        | none => some (⟨g, none⟩, rest)
      | _ => none
  | _ => none

/-- Match `BREATH_REGEX = \[\[B:(\w+)\]\]` at the head of `s`. -/
def tryBreathAt (s : List Char) : Option (List Char × List Char) :=
  match s with
  | '[' :: '[' :: 'B' :: ':' :: r =>
    let g := r.takeWhile isWordChar
    if g.isEmpty then none
    else
      match r.dropWhile isWordChar with
      | ']' :: ']' :: rest => some (g, rest)
      | _ => none
  | _ => none

/-- Global `exec` loop for `ANALYSIS_REGEX`: leftmost non-overlapping
matches, left to right. -/
def execAnalysisAux : Nat → List Char → List AnalysisMatch
  | 0, _ => []
  | fuel + 1, s =>
    match s with
    | [] => []
    | _ :: cs =>
      match tryAnalysisAt s with
      | some (m, rest) => m :: execAnalysisAux fuel rest
      | none => execAnalysisAux fuel cs

/-- All `ANALYSIS_REGEX` matches in `s`. -/
def execAnalysis (s : List Char) : List AnalysisMatch :=
  execAnalysisAux s.length s

/-- Global `exec` loop for `BREATH_REGEX`. -/
def execBreathAux : Nat → List Char → List (List Char)
  | 0, _ => []
  | fuel + 1, s =>
    match s with
    | [] => []
    | _ :: cs =>
      match tryBreathAt s with
      | some (g, rest) => g :: execBreathAux fuel rest
      | none => execBreathAux fuel cs

/-- All `BREATH_REGEX` matches in `s`. -/
def execBreath (s : List Char) : List (List Char) :=
  execBreathAux s.length s

/-- JS `x || d` on an optional capture: `undefined` and the empty string
are falsy. -/
def jsOrStr (x : Option (List Char)) (d : List Char) : List Char :=
  match x with
  | none => d
  | some s => if s.isEmpty then d else s

/-- The default intent string `'Neutral'`. -/
def neutralName : List Char := "Neutral".data

/-- The per-turn accumulator `currentModelTurnText`. -/
structure TurnState where
  currentModelTurnText : List Char
deriving DecidableEq

/-- Callbacks fired by the model-transcript branch of `handleMessage`:
`onAnalysis`, `onBreath`, `onTranscript` (model role). -/
inductive Emitted
  | analysis (emotion intent : List Char)
  | breath (phase : List Char)
  | transcriptDelta (text : List Char) (isFinal : Bool)
deriving DecidableEq

/-- The model-transcript branch of `handleMessage` for one server message
carrying `outputTranscription.text = chunk` and the given `turnComplete`
flag (an empty chunk is falsy in JS, so the branch is skipped and only the
end-of-handler `turnComplete` reset runs). -/
def handleModelTranscript (st : TurnState) (chunk : List Char)
    (turnComplete : Bool) : TurnState × List Emitted :=
  if chunk.isEmpty then
    (⟨if turnComplete then [] else st.currentModelTurnText⟩, [])
  else
    let text := st.currentModelTurnText ++ chunk
    (⟨if turnComplete then [] else text⟩,
     ((execAnalysis text).map
        (fun m => Emitted.analysis m.emotion (jsOrStr m.intent neutralName))
      ++ (execBreath text).map Emitted.breath)
     ++ [Emitted.transcriptDelta chunk turnComplete])

/-- Feed a sequence of model-transcript messages through `handleMessage`,
collecting every emitted callback in order. -/
def runModelTurn (msgs : List (List Char × Bool)) : TurnState × List Emitted :=
  msgs.foldl
    (fun acc m =>
      ((handleModelTranscript acc.1 m.1 m.2).1,
       acc.2 ++ (handleModelTranscript acc.1 m.1 m.2).2))
    (⟨[]⟩, [])

/-- `ProtocolEvent`s among the emitted callbacks (analysis and breath). -/
def isProtocolEvent : Emitted → Bool
  | .analysis _ _ => true
  | .breath _ => true
  | .transcriptDelta _ _ => false

/-- Total number of protocol events emitted for a message sequence. -/
def countProtocolEvents (msgs : List (List Char × Bool)) : Nat :=
  ((runModelTurn msgs).2.filter isProtocolEvent).length

/-- Number of recognized marker occurrences in a text. -/
def markerOccurrences (s : List Char) : Nat :=
  (execAnalysis s).length + (execBreath s).length

/-- Match `TAG_CLEAN_REGEX = \[\[(E|I|B):[^\]]+\]\]` at the head of `s`,
returning the remainder after the tag. -/
def tryTagAt (s : List Char) : Option (List Char) :=
  match s with
  | '[' :: '[' :: t :: ':' :: r =>
    if t == 'E' || t == 'I' || t == 'B' then
      let g := r.takeWhile notBr
      if g.isEmpty then none
      else
        match r.dropWhile notBr with
        | ']' :: ']' :: rest => some rest
        | _ => none
    else none
  | _ => none

/-- `text.replace(TAG_CLEAN_REGEX, '')`: delete every leftmost
non-overlapping tag match. -/
def removeTagsAux : Nat → List Char → List Char
  | 0, s => s
  | fuel + 1, s =>
    match s with
    | [] => []
    | c :: cs =>
      match tryTagAt s with
      | some rest => removeTagsAux fuel rest
      | none => c :: removeTagsAux fuel cs

/-- All complete `[[E:...]] / [[I:...]] / [[B:...]]` tags removed. -/
def removeTags (s : List Char) : List Char :=
  removeTagsAux s.length s

/-- JS `String.prototype.trim`. -/
def trimChars (s : List Char) : List Char :=
  ((s.dropWhile Char.isWhitespace).reverse.dropWhile Char.isWhitespace).reverse

/-- One displayed transcript item (role and accumulated text). -/
structure TItem where
  isUser : Bool
  text : List Char
deriving DecidableEq

/-- The `setTranscripts` updater inside `handleTranscript`: merge into the
last item of the same role (user chunks get a space separator, model chunks
are concatenated directly) or start a new item. -/
def pushTranscript (prev : List TItem) (clean : List Char) (isUser : Bool) :
    List TItem :=
  match prev.getLast? with
  | some last =>
    if last.isUser == isUser then
      prev.dropLast ++
        [⟨isUser,
          if isUser then
            last.text ++ (if clean.head? = some ' ' then clean else ' ' :: clean)
          else last.text ++ clean⟩]
    else prev ++ [⟨isUser, clean⟩]
  | none => prev ++ [⟨isUser, clean⟩]

/-- `handleTranscript` in `ActiveSession.tsx`, restricted to its transcript
state: clean the chunk, drop it if empty, otherwise push it.  (`isFinal` is
not consulted by the transcript update in the source.) -/
def handleTranscriptStep (prev : List TItem) (text : List Char)
    (isUser : Bool) : List TItem :=
  let clean := trimChars (removeTags text)
  if clean.isEmpty then prev else pushTranscript prev clean isUser

/-- End-to-end displayed transcript for a model turn: every `onTranscript`
delta emitted by `handleMessage` is fed to `handleTranscript` with
`isUser = false`. -/
def displayedTranscripts (msgs : List (List Char × Bool)) : List TItem :=
  ((runModelTurn msgs).2.filterMap
    (fun e =>
      match e with
      | Emitted.transcriptDelta t _ => some t
      | _ => none)).foldl
    (fun acc t => handleTranscriptStep acc t false) []

/-- Chunks of one turn: a complete emotion marker in the first chunk. -/
def c3msgs : List (List Char × Bool) :=
  [("[[E:Confident]]Hi".data, false), (" there".data, true)]

/-- Chunks of one turn with an emotion marker straddling the boundary. -/
def c3straddle : List (List Char × Bool) :=
  [("[[E:Con".data, false), ("fident]]Hi".data, true)]

/-- C3 fails on the code: the turn `"[[E:Confident]]Hi"` + `" there"`
contains one recognized marker occurrence but emits two protocol events,
because every chunk re-scans the whole accumulated turn text with a fresh
global regex; and a marker straddling a chunk boundary is never stripped by
the per-chunk `TAG_CLEAN_REGEX` cleaning, so the displayed transcript still
contains a complete recognized marker. -/
theorem protocol_parser_count_and_leak_bug :
    countProtocolEvents c3msgs = 2 ∧
    markerOccurrences ("[[E:Confident]]Hi there".data) = 1 ∧
    displayedTranscripts c3straddle = [⟨false, "[[E:Confident]]Hi".data⟩] ∧
    markerOccurrences
      ((displayedTranscripts c3straddle).foldl (fun a t => a ++ t.text) [])
      = 1 := by
  decide

/-- The §8 scenario: `"[[E:Confident]][[I:Inquiry]]Hello"` then `" there"`
with `isFinal = true`. -/
def c4msgs : List (List Char × Bool) :=
  [("[[E:Confident]][[I:Inquiry]]Hello".data, false), (" there".data, true)]

/-- Analysis (emotion/intent) events among the emitted callbacks. -/
def isAnalysisEvent : Emitted → Bool
  | .analysis _ _ => true
  | _ => false

/-- C4 fails on the code: the scenario emits the Confident/Inquiry analysis
pair twice (the second chunk re-matches the accumulated text), and the
displayed transcript is "Hellothere" — each chunk is trimmed and model
chunks are concatenated with no separator, losing the space. -/
theorem scenario_turn_events_and_transcript :
    (runModelTurn c4msgs).2.filter isAnalysisEvent =
      [Emitted.analysis "Confident".data "Inquiry".data,
       Emitted.analysis "Confident".data "Inquiry".data] ∧
    displayedTranscripts c4msgs = [⟨false, "Hellothere".data⟩] := by
  decide

/-- C10: whenever `ANALYSIS_REGEX` matches with the optional intent group
absent (an emotion marker not immediately followed by an intent marker),
the analysis callback for that match carries the default intent
`'Neutral'`. -/
theorem analysis_intent_defaults_to_neutral (st : TurnState)
    (chunk : List Char) (tc : Bool) (m : AnalysisMatch)
    (hm : m ∈ execAnalysis (st.currentModelTurnText ++ chunk))
    (hi : m.intent = none) (hne : chunk ≠ []) :
    Emitted.analysis m.emotion neutralName ∈
      (handleModelTranscript st chunk tc).2 := by
  have hchunk : chunk.isEmpty = false := by
    cases chunk with
    | nil => exact absurd rfl hne
    | cons c cs => rfl
  simp only [handleModelTranscript, hchunk, Bool.false_eq_true, if_false]
  apply List.mem_append_left
  apply List.mem_append_left
  have hrw : Emitted.analysis m.emotion neutralName =
      Emitted.analysis m.emotion (jsOrStr m.intent neutralName) := by
    rw [hi]; rfl
  rw [hrw]
  exact List.mem_map_of_mem _ hm

theorem analysis_intent_defaults_to_neutral_witness :
    (⟨"Happy".data, none⟩ : AnalysisMatch) ∈
      execAnalysis ((⟨[]⟩ : TurnState).currentModelTurnText
        ++ "[[E:Happy]] ok".data) ∧
    Emitted.analysis "Happy".data neutralName ∈
      (handleModelTranscript ⟨[]⟩ "[[E:Happy]] ok".data false).2 :=
  ⟨by decide,
   analysis_intent_defaults_to_neutral ⟨[]⟩ "[[E:Happy]] ok".data false
     ⟨"Happy".data, none⟩ (by decide) rfl (by decide)⟩

end ConfidenceApp
